import Mathlib

/-!
Verification development for the Weaklayer Gateway core subsystems:

* `Weaklayer.Auth`   — install key / verifier protocol (`common/auth/auth.go`)
* `Weaklayer.Token`  — bearer-token issue/verify over jwt-go (`server/token/token.go`)
* `Weaklayer.Events` — typed event parsing (`server/events/*.go`, `server/api/events.go`)
* `Weaklayer.Fs`     — filesystem output sink (`server/output/filesystem/*.go`)

The Go code is shallowly embedded: pure functions become Lean functions,
machine byte slices become `List Nat`, external cryptographic primitives
(SHA-256, PBKDF2, HMAC-SHA256) and the system random source are universally
quantified parameters, and Go runtime panics are modelled by an explicit
`crash` result.
-/

namespace Weaklayer

/-- Go `[]byte`, modelled as a list of byte values. -/
abbrev Bytes := List Nat

/-- `uuid.UUID` from github.com/google/uuid: a 16-byte value.
`MarshalBinary` on it returns exactly these bytes and never errors. -/
abbrev UUID := List Nat

namespace Auth

/-- `auth.Key` — the install key given to sensors (`common/auth/auth.go`). -/
structure Key where
  group : UUID
  secret : Bytes
  checksum : Bytes
  deriving DecidableEq

/-- `auth.Verifier` — the server-side counterpart of a `Key`. -/
structure Verifier where
  group : UUID
  salt : Bytes
  hash : Bytes
  checksum : Bytes
  deriving DecidableEq

/-- `auth.UUIDEquals`: marshals both UUIDs to bytes (the identity in this
embedding, and never an error in the Go library) and compares with
`bytes.Equal`. -/
def UUIDEquals (u1 u2 : UUID) : Bool :=
  u1 == u2

section AuthDefs

/- External primitives of `common/auth/auth.go`:
`sha256` stands for one-shot `crypto/sha256` digesting (`digest.Write`
never errors on the stdlib sha256 state, so `calculateChecksum` always
succeeds), and `pbkdf2` for `golang.org/x/crypto/pbkdf2.Key` applied with
`sha256.New` (arguments: password, salt, iterations, key length). -/
variable (sha256 : Bytes → Bytes)
variable (pbkdf2 : Bytes → Bytes → Nat → Nat → Bytes)

/-- `auth.calculateChecksum`: a single sha256 digest of the input. -/
def calculateChecksum (input : Bytes) : Bytes :=
  sha256 input

/-- `auth.calculateKeyChecksum`: digest of the group UUID bytes followed by
the secret. -/
def calculateKeyChecksum (group : UUID) (secret : Bytes) : Bytes :=
  calculateChecksum sha256 (group ++ secret)

/-- `auth.calculateVerifierChecksum`: digest of group bytes, then salt, then
hash. -/
def calculateVerifierChecksum (group : UUID) (salt : Bytes) (hash : Bytes) : Bytes :=
  calculateChecksum sha256 (group ++ salt ++ hash)

/-- `auth.calculateHash`: PBKDF2 with 10000 iterations and 32-byte output
over the key secret and the given salt. -/
def calculateHash (key : Key) (salt : Bytes) : Bytes :=
  pbkdf2 key.secret salt 10000 32

/-- `auth.NewKey`: builds a key for `group` from the 64 random bytes
produced by `auth.NewRandomBytes(64)`; the random bytes are passed in
explicitly here, standing for a successful draw from `crypto/rand`. -/
def NewKey (group : UUID) (secret : Bytes) : Key :=
  { group := group
    secret := secret
    checksum := calculateKeyChecksum sha256 group secret }

/-- `auth.NewVerifier`: builds a verifier for `key` from the 4 random salt
bytes produced by `auth.NewRandomBytes(4)`. -/
def NewVerifier (key : Key) (salt : Bytes) : Verifier :=
  { group := key.group
    salt := salt
    hash := calculateHash pbkdf2 key salt
    checksum := calculateVerifierChecksum sha256 key.group salt (calculateHash pbkdf2 key salt) }

/-- `auth.isKeyChecksumValid`: recompute the key checksum and compare with
`bytes.Equal`. -/
def isKeyChecksumValid (key : Key) : Bool :=
  calculateKeyChecksum sha256 key.group key.secret == key.checksum

/-- `auth.IsVerifierValid`: recompute the verifier checksum and compare. -/
def IsVerifierValid (verifier : Verifier) : Bool :=
  calculateVerifierChecksum sha256 verifier.group verifier.salt verifier.hash == verifier.checksum

/-- `auth.isHashValid`: recompute the slow hash from the key secret and the
verifier salt and compare with the stored hash. -/
def isHashValid (key : Key) (verifier : Verifier) : Bool :=
  verifier.hash == calculateHash pbkdf2 key verifier.salt

/-- `auth.Verify`: conjunction of the group comparison, both checksum
validations and the slow-hash validation, in source order. -/
def Verify (key : Key) (verifier : Verifier) : Bool :=
  UUIDEquals key.group verifier.group
    && isKeyChecksumValid sha256 key
    && IsVerifierValid sha256 verifier
    && isHashValid pbkdf2 key verifier

end AuthDefs

end Auth

end Weaklayer

namespace Weaklayer.Auth

/-- C1: for every group UUID, every random secret draw and every random salt
draw (and any instantiation of the external hash primitives), the key
produced by `NewKey` and the verifier produced from it by `NewVerifier`
satisfy `Verify`. In Go, `NewKey`/`NewVerifier` fail only when the random
source fails, which corresponds here to quantifying over the drawn bytes. -/
theorem c1_verify_roundtrip (sha256 : Bytes → Bytes)
    (pbkdf2 : Bytes → Bytes → Nat → Nat → Bytes)
    (group : UUID) (secret salt : Bytes) :
    Verify sha256 pbkdf2 (NewKey sha256 group secret)
      (NewVerifier sha256 pbkdf2 (NewKey sha256 group secret) salt) = true := by
  simp [Verify, NewKey, NewVerifier, UUIDEquals, isKeyChecksumValid,
    IsVerifierValid, isHashValid]

/-- C2: `Verify key verifier` returns true iff the two group UUIDs are
bit-for-bit equal, the key checksum equals the fast hash of group‖secret,
the verifier checksum equals the fast hash of group‖salt‖hash, and the slow
hash (PBKDF2, 10000 iterations, 32-byte output) recomputed from the key
secret and the verifier salt equals the stored hash. The embedded `Verify`
is a total `Bool`-valued function, which reflects that the Go code never
raises: every error inside the helpers is converted to a `false` result. -/
theorem c2_verify_characterization (sha256 : Bytes → Bytes)
    (pbkdf2 : Bytes → Bytes → Nat → Nat → Bytes)
    (key : Key) (verifier : Verifier) :
    Verify sha256 pbkdf2 key verifier = true ↔
      (key.group = verifier.group
        ∧ key.checksum = sha256 (key.group ++ key.secret)
        ∧ verifier.checksum = sha256 (verifier.group ++ verifier.salt ++ verifier.hash)
        ∧ verifier.hash = pbkdf2 key.secret verifier.salt 10000 32) := by
  simp only [Verify, UUIDEquals, isKeyChecksumValid, IsVerifierValid, isHashValid,
    calculateKeyChecksum, calculateVerifierChecksum, calculateChecksum, calculateHash,
    Bool.and_eq_true, beq_iff_eq]
  constructor
  · rintro ⟨⟨⟨h1, h2⟩, h3⟩, h4⟩
    exact ⟨h1, h2.symm, h3.symm, h4⟩
  · rintro ⟨h1, h2, h3, h4⟩
    exact ⟨⟨⟨h1, h2.symm⟩, h3.symm⟩, h4⟩

end Weaklayer.Auth

namespace Weaklayer

/-- Result of executing a piece of Go code: either a normal return value or
a runtime panic (`crash`), e.g. a nil-pointer dereference or an
out-of-range slice index. -/
inductive GoResult (α : Type) where
  | ok (a : α)
  | crash
  deriving DecidableEq

namespace Token

/-- `token.Claims`: group and sensor UUIDs plus the embedded
`jwt.StandardClaims` fields that `token.go` populates (unix seconds). -/
structure Claims where
  group : UUID
  sensor : UUID
  expiresAt : Int
  issuedAt : Int
  notBefore : Int
  deriving DecidableEq

/-- The Go zero value of `token.Claims` (zero UUIDs, zero times), which is
what `tryTokenVerification` returns alongside `false` when parsing fails
before the claims segment is decoded. -/
def defaultClaims : Claims :=
  { group := List.replicate 16 0
    sensor := List.replicate 16 0
    expiresAt := 0
    issuedAt := 0
    notBefore := 0 }

/-- The signing-method value jwt-go v3.2.0 resolves from the token's
declared `alg` header: the HMAC family (`*jwt.SigningMethodHMAC`), the
"none" method, or one of the other registered asymmetric families. -/
inductive SigningMethod where
  | hmac (name : String)
  | noSignature
  | rsa (name : String)
  | ecdsa (name : String)
  | rsapss (name : String)
  deriving DecidableEq

/-- `jwt.GetSigningMethod` over the methods registered by jwt-go v3.2.0's
package initialisers; an unregistered `alg` yields `none`, which
`ParseWithClaims` turns into a "signing method (alg) is unavailable"
error before the key function is consulted. -/
def getSigningMethod (alg : String) : Option SigningMethod :=
  if alg = "none" then some .noSignature
  else if alg = "HS256" then some (.hmac "HS256")
  else if alg = "HS384" then some (.hmac "HS384")
  else if alg = "HS512" then some (.hmac "HS512")
  else if alg = "RS256" then some (.rsa "RS256")
  else if alg = "RS384" then some (.rsa "RS384")
  else if alg = "RS512" then some (.rsa "RS512")
  else if alg = "ES256" then some (.ecdsa "ES256")
  else if alg = "ES384" then some (.ecdsa "ES384")
  else if alg = "ES512" then some (.ecdsa "ES512")
  else if alg = "PS256" then some (.rsapss "PS256")
  else if alg = "PS384" then some (.rsapss "PS384")
  else if alg = "PS512" then some (.rsapss "PS512")
  else none

/-- A token string as seen by `jwt.ParseWithClaims`: either it fails
structural parsing (wrong number of dot-separated segments, undecodable
base64, or claims JSON that does not decode — e.g. the two-segment output
of `SigningString()` used in `TestSigningAlgNone`), or it is well formed
with a declared `alg` header value, decoded claims, and decoded signature
bytes. -/
inductive TokenStr where
  | malformed
  | wellFormed (alg : String) (claims : Claims) (sig : Bytes)
  deriving DecidableEq

/-- Outcome of the key callback passed to `jwt.ParseWithClaims`. -/
inductive KeyfuncResult where
  | key (secret : Bytes)
  | err
  | crash
  deriving DecidableEq

/-- The key callback literal inside `token.tryTokenVerification`. For an
HMAC method whose name is not "HS256" the error return is taken with
`method` non-nil, producing an error value. For any non-HMAC method the
type assertion `token.Method.(*jwt.SigningMethodHMAC)` fails, leaving
`method` as a nil `*jwt.SigningMethodHMAC`; evaluating `method.Name` for
the error message then dereferences a nil pointer, so the callback panics
instead of returning. -/
def keyfunc (secret : Bytes) : SigningMethod → KeyfuncResult
  | .hmac name => if name = "HS256" then .key secret else .err
  | _ => .crash

/-- `jwt.StandardClaims.VerifyExpiresAt(now, false)`: a zero `exp` is not
checked; otherwise `now <= exp`. -/
def verifyExpiresAt (exp now : Int) : Bool :=
  if exp = 0 then true else decide (now ≤ exp)

/-- `jwt.StandardClaims.VerifyIssuedAt(now, false)`: a zero `iat` is not
checked; otherwise `now >= iat`. -/
def verifyIssuedAt (iat now : Int) : Bool :=
  if iat = 0 then true else decide (iat ≤ now)

/-- `jwt.StandardClaims.VerifyNotBefore(now, false)`: a zero `nbf` is not
checked; otherwise `now >= nbf`. -/
def verifyNotBefore (nbf now : Int) : Bool :=
  if nbf = 0 then true else decide (nbf ≤ now)

/-- `jwt.StandardClaims.Valid()` evaluated at unix time `now` (the fields
of `token.Claims` are promoted from the embedded `StandardClaims`). -/
def claimsValid (now : Int) (c : Claims) : Bool :=
  verifyExpiresAt c.expiresAt now && verifyIssuedAt c.issuedAt now && verifyNotBefore c.notBefore now

/-- `token.Processor` — current signing secret, ordered past secrets, and
token lifetime in seconds. -/
structure Processor where
  currentSecret : Bytes
  pastSecrets : List Bytes
  duration : Int

/-- `token.NewProcessor`. -/
def NewProcessor (currentSecret : Bytes) (pastSecrets : List Bytes) (duration : Int) : Processor :=
  { currentSecret := currentSecret, pastSecrets := pastSecrets, duration := duration }

/-- The claims literal built inside `Processor.NewToken` at unix time
`now`. -/
def newClaims (group sensor : UUID) (now duration : Int) : Claims :=
  { group := group
    sensor := sensor
    expiresAt := now + duration
    issuedAt := now
    notBefore := now }

section TokenDefs

/- External primitives: `hmacSHA256 secret input` is the HMAC-SHA256 tag
jwt-go computes over the signing input, and `signingInput alg claims` is
the `base64(header).base64(claims)` signing string for a token with the
given `alg` header and claims (the JSON/base64 encodings live in jwt-go
and encoding/json, outside this repository). -/
variable (hmacSHA256 : Bytes → String → Bytes)
variable (signingInput : String → Claims → String)

/-- `Processor.NewToken`: builds claims with `issuedAt = notBefore = now`
and `expiresAt = now + duration`, signs with the fixed HS256 method under
the current secret, and returns `(token, expiresAt, issuedAt)`.
`SignedString` fails only if JSON marshalling fails, which cannot happen
for this claims structure. -/
def NewToken (tp : Processor) (group sensor : UUID) (now : Int) : TokenStr × Int × Int :=
  let claims := newClaims group sensor now tp.duration
  (.wellFormed "HS256" claims (hmacSHA256 tp.currentSecret (signingInput "HS256" claims)),
    now + tp.duration, now)

/-- `token.tryTokenVerification` over jwt-go v3.2.0's `ParseWithClaims`
pipeline at unix time `now`: structural parse, `alg` lookup, the key
callback (which can panic, see `keyfunc`), then claims validity and
HS256 signature check; `token.Valid` requires both. On any non-panicking
failure the function returns `false` together with the claims decoded so
far. The signature comparison only arises in the `KeyfuncResult.key`
branch, where the method is necessarily HS256. -/
def tryTokenVerification (now : Int) (tokenStr : TokenStr) (secret : Bytes) : GoResult (Bool × Claims) :=
  match tokenStr with
  | .malformed => .ok (false, defaultClaims)
  | .wellFormed alg claims sig =>
    match getSigningMethod alg with
    | none => .ok (false, claims)
    | some method =>
      match keyfunc secret method with
      | .crash => .crash
      | .err => .ok (false, claims)
      | .key key =>
        .ok (claimsValid now claims && (sig == hmacSHA256 key (signingInput alg claims)), claims)

/-- The `for _, secret := range tokenProcessor.pastSecrets` loop of
`Processor.VerifyToken`, threading the `claims` variable exactly as the
Go code reassigns it on each iteration. -/
def verifyLoop (now : Int) (tokenStr : TokenStr) : List Bytes → Claims → GoResult (Bool × Claims)
  | [], claims => .ok (false, claims)
  | secret :: rest, _ =>
    match tryTokenVerification hmacSHA256 signingInput now tokenStr secret with
    | .crash => .crash
    | .ok (true, c) => .ok (true, c)
    | .ok (false, c) => verifyLoop now tokenStr rest c

/-- `Processor.VerifyToken`: try the current secret, then fall back
through the past secrets in order. -/
def VerifyToken (tp : Processor) (now : Int) (tokenStr : TokenStr) : GoResult (Bool × Claims) :=
  match tryTokenVerification hmacSHA256 signingInput now tokenStr tp.currentSecret with
  | .crash => .crash
  | .ok (true, c) => .ok (true, c)
  | .ok (false, c) => verifyLoop hmacSHA256 signingInput now tokenStr tp.pastSecrets c

end TokenDefs

end Token

end Weaklayer

namespace Weaklayer.Token

/-- Helper: evaluation of `tryTokenVerification` on a well-formed HS256
token. -/
theorem tryTokenVerification_hs256 (hmacSHA256 : Bytes → String → Bytes)
    (signingInput : String → Claims → String) (now : Int) (claims : Claims)
    (sig : Bytes) (secret : Bytes) :
    tryTokenVerification hmacSHA256 signingInput now (.wellFormed "HS256" claims sig) secret
      = .ok (claimsValid now claims && (sig == hmacSHA256 secret (signingInput "HS256" claims)),
          claims) := by
  simp [tryTokenVerification, getSigningMethod, keyfunc]

/-- Helper: the claims minted by `NewToken` at time `now` pass the
standard-claims checks at any verification time within the lifetime. -/
theorem claimsValid_newClaims (group sensor : UUID) (now dur vnow : Int)
    (h1 : now ≤ vnow) (h2 : vnow ≤ now + dur) :
    claimsValid vnow (newClaims group sensor now dur) = true := by
  simp only [claimsValid, newClaims, verifyExpiresAt, verifyIssuedAt, verifyNotBefore,
    Bool.and_eq_true]
  refine ⟨⟨?_, ?_⟩, ?_⟩ <;> split <;> simp <;> omega

/-- Helper: if the signing secret occurs in a secrets list and the claims
pass the time checks, the past-secrets loop accepts and returns the
token's claims. -/
theorem verifyLoop_finds (hmacSHA256 : Bytes → String → Bytes)
    (signingInput : String → Claims → String) (vnow : Int) (claims : Claims) (s : Bytes)
    (hvalid : claimsValid vnow claims = true) :
    ∀ (secrets : List Bytes) (c0 : Claims), s ∈ secrets →
      verifyLoop hmacSHA256 signingInput vnow
          (.wellFormed "HS256" claims (hmacSHA256 s (signingInput "HS256" claims))) secrets c0
        = .ok (true, claims) := by
  intro secrets
  induction secrets with
  | nil => intro c0 h; cases h
  | cons p rest ih =>
    intro c0 hmem
    rw [verifyLoop, tryTokenVerification_hs256]
    cases hb : claimsValid vnow claims
        && (hmacSHA256 s (signingInput "HS256" claims)
            == hmacSHA256 p (signingInput "HS256" claims)) with
    | true => rfl
    | false =>
      have hsp : s ≠ p := by
        intro he
        subst he
        simp [hvalid] at hb
      have hrest : s ∈ rest := by
        rcases List.mem_cons.mp hmem with h | h
        · exact absurd h hsp
        · exact h
      exact ih claims hrest

/-- C3: for every well-formed token whose declared signing algorithm is
"none", `VerifyToken` does not return an invalid verdict — it panics,
regardless of the processor's secrets. jwt-go resolves "none" to its
registered non-HMAC signing method and hands it to the key callback,
whose failed type assertion leaves a nil `*jwt.SigningMethodHMAC` that is
then dereferenced while formatting the error message. The repository's
own test (`TestSigningAlgNone`) asserts such tokens are merely "not seen
as valid"; it passes only because its test token, built via
`SigningString()`, has two segments and is rejected as malformed before
the key callback runs. -/
theorem c3_alg_none_crashes (hmacSHA256 : Bytes → String → Bytes)
    (signingInput : String → Claims → String) (tp : Processor) (now : Int)
    (claims : Claims) (sig : Bytes) :
    VerifyToken hmacSHA256 signingInput tp now (.wellFormed "none" claims sig)
      = .crash := by
  simp [VerifyToken, tryTokenVerification, getSigningMethod, keyfunc]

/-- C3 supporting fact: malformed tokens (such as the two-segment token the
unit test builds) are rejected as invalid without a panic, for every
processor. -/
theorem malformed_token_rejected (hmacSHA256 : Bytes → String → Bytes)
    (signingInput : String → Claims → String) (tp : Processor) (now : Int) :
    VerifyToken hmacSHA256 signingInput tp now .malformed
      = .ok (false, defaultClaims) := by
  have hloop : ∀ (secrets : List Bytes) (c0 : Claims),
      c0 = defaultClaims →
      verifyLoop hmacSHA256 signingInput now TokenStr.malformed secrets c0
        = .ok (false, defaultClaims) := by
    intro secrets
    induction secrets with
    | nil => intro c0 h; simp [verifyLoop, h]
    | cons p rest ih =>
      intro c0 _
      rw [verifyLoop]
      simp only [tryTokenVerification]
      exact ih defaultClaims rfl
  simp only [VerifyToken, tryTokenVerification]
  exact hloop tp.pastSecrets defaultClaims rfl

/-- C4: a token minted by `NewToken` is accepted with the original group
and sensor claims (i) when verified by the issuing processor and (ii)
when the signing secret `s` has been demoted into another processor's
past-secrets list, at any verification time within the token lifetime;
and (iii) `VerifyToken` is exactly the first-success scan of the token
over the current secret followed by the past secrets in configured
order. -/
theorem c4_token_roundtrip_and_rotation (hmacSHA256 : Bytes → String → Bytes)
    (signingInput : String → Claims → String)
    (cur s cur2 : Bytes) (past1 past2 : List Bytes) (dur dur2 : Int)
    (group sensor : UUID) (now vnow : Int)
    (hnow : now ≤ vnow) (hexp : vnow ≤ now + dur) (hmem : s ∈ past2) :
    (VerifyToken hmacSHA256 signingInput (NewProcessor cur past1 dur) vnow
        (NewToken hmacSHA256 signingInput (NewProcessor cur past1 dur) group sensor now).1
      = .ok (true, newClaims group sensor now dur))
    ∧ (VerifyToken hmacSHA256 signingInput (NewProcessor cur2 past2 dur2) vnow
        (NewToken hmacSHA256 signingInput (NewProcessor s past1 dur) group sensor now).1
      = .ok (true, newClaims group sensor now dur))
    ∧ (∀ (tp : Processor) (tok : TokenStr),
        VerifyToken hmacSHA256 signingInput tp vnow tok
          = verifyLoop hmacSHA256 signingInput vnow tok
              (tp.currentSecret :: tp.pastSecrets) defaultClaims) := by
  have hvalid := claimsValid_newClaims group sensor now dur vnow hnow hexp
  refine ⟨?_, ?_, ?_⟩
  · simp only [NewToken, NewProcessor, VerifyToken, tryTokenVerification_hs256]
    simp [hvalid]
  · simp only [NewToken, NewProcessor, VerifyToken, tryTokenVerification_hs256]
    cases hb : claimsValid vnow (newClaims group sensor now dur)
        && (hmacSHA256 s (signingInput "HS256" (newClaims group sensor now dur))
            == hmacSHA256 cur2 (signingInput "HS256" (newClaims group sensor now dur))) with
    | true => rfl
    | false =>
      exact verifyLoop_finds hmacSHA256 signingInput vnow
        (newClaims group sensor now dur) s hvalid past2 _ hmem
  · intro tp tok
    cases htry : tryTokenVerification hmacSHA256 signingInput vnow tok tp.currentSecret with
    | crash => rw [VerifyToken, verifyLoop, htry]
    | ok bc =>
      rcases bc with ⟨b, c⟩
      cases b <;> rw [VerifyToken, verifyLoop, htry]

/-- C4 witness: concrete rotation instance — a token signed under secret
`[2]` is still accepted after `[2]` was demoted to the past-secrets list
of a processor whose current secret is `[3]`. -/
theorem c4_token_rotation_witness :
    ((5 : Int) ≤ 6 ∧ (6 : Int) ≤ 5 + 10 ∧ ([2] : Bytes) ∈ [([2] : Bytes)])
    ∧ VerifyToken (fun key s => key ++ [s.length]) (fun alg _ => alg)
        (NewProcessor [3] [[2]] 20) 6
        (NewToken (fun key s => key ++ [s.length]) (fun alg _ => alg)
          (NewProcessor [2] [] 10) (List.replicate 16 1) (List.replicate 16 2) 5).1
      = .ok (true, newClaims (List.replicate 16 1) (List.replicate 16 2) 5 10) :=
  ⟨⟨by decide, by decide, by decide⟩,
    (c4_token_roundtrip_and_rotation (fun key s => key ++ [s.length]) (fun alg _ => alg)
      [2] [2] [3] [] [[2]] 10 20 (List.replicate 16 1) (List.replicate 16 2) 5 6
      (by decide) (by decide) (by decide)).2.1⟩

end Weaklayer.Token

namespace Weaklayer.Events

/-- A JSON value as decoded by encoding/json into `interface{}`: the
universe over which the event schemas are checked. Object fields model the
decoded `map[string]interface{}` (keys distinct). Numbers are restricted
to integer values; the schemas in scope only ever accept integer-valued
numbers, and none of the claims concerns fractional inputs. -/
inductive Json where
  | null
  | bool (b : Bool)
  | num (n : Int)
  | str (s : String)
  | arr (elems : List Json)
  | obj (fields : List (String × Json))

/-- Field lookup in a decoded JSON object. -/
def lookupField : List (String × Json) → String → Option Json
  | [], _ => none
  | (k, v) :: rest, key => if k = key then some v else lookupField rest key

/-- Project a JSON string value. -/
def asStr : Option Json → Option String
  | some (.str s) => some s
  | _ => none

/-- Project a JSON integer value. -/
def asInt : Option Json → Option Int
  | some (.num n) => some n
  | _ => none

/-- One character of the `"pattern": "^[a-zA-z]*$"` regex from
`sensorEventJSONSchemaString`. Note the source's `A-z` (not `A-Z`): the
second range also admits the ASCII characters between `Z` and `a`. -/
def typePatternChar (c : Char) : Bool :=
  ('a' ≤ c && c ≤ 'z') || ('A' ≤ c && c ≤ 'z')

/-- The `type` property's pattern check, over the string's character
list. -/
def typePatternOk (s : String) : Bool :=
  s.data.all typePatternChar

/-- Lowercase hex digit, as used by gojsonschema's UUID format regex. -/
def isHexLowerChar (c : Char) : Bool :=
  ('0' ≤ c && c ≤ '9') || ('a' ≤ c && c ≤ 'f')

/-- gojsonschema's `"format": "uuid"` checker: lowercase hex groups of
lengths 8-4-4-4-12 separated by dashes. -/
def isUUIDFormat (s : String) : Bool :=
  match s.splitOn "-" with
  | [a, b, c, d, e] =>
    a.length == 8 && b.length == 4 && c.length == 4 && d.length == 4 && e.length == 12
      && (a ++ b ++ c ++ d ++ e).all isHexLowerChar
  | _ => false

/-- The hostname property of `windowLocaionEventJSONSchemaString` is an
`anyOf` over the formats idn-hostname, hostname, ipv4 and ipv6.
gojsonschema has no checker registered under "idn-hostname" and treats an
unrecognized format as always valid, so the first `anyOf` branch accepts
every string. (Under the stricter reading where every branch is a real
format check, the only hostname appearing in this development,
"weaklayer.com", is accepted as well, so no statement below depends on
the difference.) -/
def anyOfHostnameFormats (_ : String) : Bool :=
  true

/-- `sensorEventJSONSchemaString` applied by `events.schemaValidate`
through gojsonschema: the value must be an object, `type` and `time` are
required, `type` must be a string matching `^[a-zA-z]*$` of at most 255
characters, `time` must be an integer at least 0, and `sensor`/`group`,
when present, must be strings in UUID format. Additional properties are
allowed. -/
def validateSensorEventJSON (j : Json) : Bool :=
  match j with
  | .obj fields =>
    (match lookupField fields "type" with
      | some (.str s) => typePatternOk s && decide (s.length ≤ 255)
      | _ => false)
    && (match lookupField fields "time" with
      | some (.num n) => decide (0 ≤ n)
      | _ => false)
    && (match lookupField fields "sensor" with
      | some (.str s) => isUUIDFormat s
      | some _ => false
      | none => true)
    && (match lookupField fields "group" with
      | some (.str s) => isUUIDFormat s
      | some _ => false
      | none => true)
  | _ => false

/-- `events.SensorEvent` (`Type` is rendered as `typ`; `events.EventType`
is a string). -/
structure SensorEvent where
  typ : String
  time : Int
  sensor : UUID
  group : UUID
  deriving DecidableEq

/-- The Go zero value of `uuid.UUID`. -/
def zeroUUID : UUID := List.replicate 16 0

/-- `events.WindowLocationEvent`: an embedded `SensorEvent` plus the
page-location payload fields. -/
structure WindowLocationEvent where
  base : SensorEvent
  protocol : String
  hostname : String
  port : Int
  path : String
  search : String
  hash : String
  windowReference : Int
  deriving DecidableEq

/-- `events.Event` — the interface value returned by `ParseEvent`; the
implementations in the source are `SensorEvent` (used for unknown types),
`WindowEvent` (an embedded `SensorEvent` and nothing else) and
`WindowLocationEvent`. (`InstallEvent` exists but is only constructed
server-side and has no registered parser.) -/
inductive Event where
  | sensorEv (e : SensorEvent)
  | windowEv (e : SensorEvent)
  | windowLocationEv (w : WindowLocationEvent)
  deriving DecidableEq

/-- `Event.GetSensor` across the three implementations. -/
def getSensor : Event → UUID
  | .sensorEv e => e.sensor
  | .windowEv e => e.sensor
  | .windowLocationEv w => w.base.sensor

/-- `Event.GetGroup` across the three implementations. -/
def getGroup : Event → UUID
  | .sensorEv e => e.group
  | .windowEv e => e.group
  | .windowLocationEv w => w.base.group

/-- `Event.GetType`: `SensorEvent` returns its `Type` field; `WindowEvent`
and `WindowLocationEvent` return their fixed type constants. -/
def getType : Event → String
  | .sensorEv e => e.typ
  | .windowEv _ => "Window"
  | .windowLocationEv _ => "WindowLocation"

section EventDefs

/- External primitive: `uuid.UUID.UnmarshalText` as invoked by
`json.Unmarshal` when a `sensor`/`group` string is present in the
payload. The parsed value is overwritten with the authenticated identity
in every branch of the source, so nothing below depends on it. -/
variable (uuidParse : String → UUID)

/-- `json.Unmarshal(data, &sensorEvent)`: populate the struct fields from
the object's properties, leaving the Go zero value for anything absent.
(The source ignores the error result of this call; with schema validation
already passed, the extraction is exactly this.) -/
def unmarshalSensorEvent (j : Json) : SensorEvent :=
  match j with
  | .obj fields =>
    { typ := (asStr (lookupField fields "type")).getD ""
      time := (asInt (lookupField fields "time")).getD 0
      sensor := match asStr (lookupField fields "sensor") with
        | some s => uuidParse s
        | none => zeroUUID
      group := match asStr (lookupField fields "group") with
        | some s => uuidParse s
        | none => zeroUUID }
  | _ => { typ := "", time := 0, sensor := zeroUUID, group := zeroUUID }

/-- `events.parseSensorEvent`: schema-validate, unmarshal, then overwrite
`Sensor` and `Group` with the authenticated values. -/
def parseSensorEvent (j : Json) (sensor group : UUID) : Except Unit SensorEvent :=
  if validateSensorEventJSON j then
    let sensorEvent := unmarshalSensorEvent uuidParse j
    .ok { sensorEvent with sensor := sensor, group := group }
  else
    .error ()

/-- `windowEventJSONSchemaString`: `allOf` of the envelope schema and a
subschema pinning `type` (which the envelope already requires to be
present and a string) to the enum `["Window"]`. -/
def validateWindowEventJSON (j : Json) : Bool :=
  validateSensorEventJSON j
    && (match j with
      | .obj fields =>
        match lookupField fields "type" with
        | some (.str s) => s == "Window"
        | _ => false
      | _ => false)

/-- `events.parseWindowEvent`: validate against the Window schema,
unmarshal the embedded `SensorEvent`, then overwrite `Sensor`, `Group`
and `Type`. -/
def parseWindowEvent (j : Json) (sensor group : UUID) : Except Unit Event :=
  if validateWindowEventJSON j then
    let windowEvent := unmarshalSensorEvent uuidParse j
    .ok (.windowEv { windowEvent with sensor := sensor, group := group, typ := "Window" })
  else
    .error ()

/-- `windowLocaionEventJSONSchemaString`: `allOf` of the envelope schema
and a subschema with required payload fields. Each payload property check
below folds the `required` entry together with the property's own
constraint; `type` is pinned to the enum `["WindowLocation"]` (presence
already forced by the envelope's `required`). -/
def validateWindowLocationEventJSON (j : Json) : Bool :=
  validateSensorEventJSON j
    && (match j with
      | .obj fields =>
        (match lookupField fields "type" with
          | some (.str s) => s == "WindowLocation"
          | _ => false)
        && (match lookupField fields "protocol" with
          | some (.str _) => true
          | _ => false)
        && (match lookupField fields "hostname" with
          | some (.str s) => anyOfHostnameFormats s
          | _ => false)
        && (match lookupField fields "port" with
          | some (.num n) => decide (0 ≤ n) && decide (n ≤ 65535)
          | _ => false)
        && (match lookupField fields "path" with
          | some (.str _) => true
          | _ => false)
        && (match lookupField fields "search" with
          | some (.str _) => true
          | _ => false)
        && (match lookupField fields "hash" with
          | some (.str _) => true
          | _ => false)
        && (match lookupField fields "windowReference" with
          | some (.num n) => decide (0 ≤ n)
          | _ => false)
      | _ => false)

/-- `json.Unmarshal(data, &windowLocationEvent)`: the embedded
`SensorEvent` plus the payload properties, zero values when absent. -/
def unmarshalWindowLocationEvent (j : Json) : WindowLocationEvent :=
  match j with
  | .obj fields =>
    { base := unmarshalSensorEvent uuidParse j
      protocol := (asStr (lookupField fields "protocol")).getD ""
      hostname := (asStr (lookupField fields "hostname")).getD ""
      port := (asInt (lookupField fields "port")).getD 0
      path := (asStr (lookupField fields "path")).getD ""
      search := (asStr (lookupField fields "search")).getD ""
      hash := (asStr (lookupField fields "hash")).getD ""
      windowReference := (asInt (lookupField fields "windowReference")).getD 0 }
  | _ =>
    { base := unmarshalSensorEvent uuidParse j
      protocol := "", hostname := "", port := 0, path := ""
      search := "", hash := "", windowReference := 0 }

/-- `events.parseWindowLocationEvent`: validate against the
WindowLocation schema, unmarshal, then overwrite `Sensor`, `Group` and
`Type`. -/
def parseWindowLocationEvent (j : Json) (sensor group : UUID) : Except Unit Event :=
  if validateWindowLocationEventJSON j then
    let w := unmarshalWindowLocationEvent uuidParse j
    .ok (.windowLocationEv
      { w with base := { w.base with sensor := sensor, group := group, typ := "WindowLocation" } })
  else
    .error ()

/-- `events.eventParserMap` after both package initialisers have run:
"Window" and "WindowLocation" are the only registered types. -/
def eventParserMap (t : String) : Option (Json → UUID → UUID → Except Unit Event) :=
  if t = "Window" then some (parseWindowEvent uuidParse)
  else if t = "WindowLocation" then some (parseWindowLocationEvent uuidParse)
  else none

/-- `events.ParseEvent`: parse the generic envelope first; an unregistered
type is retained as the envelope with `Type` forced to `Unknown`; a
registered type is re-parsed by its own parser on the original data. -/
def ParseEvent (j : Json) (sensor group : UUID) : Except Unit Event :=
  match parseSensorEvent uuidParse j sensor group with
  | .error e => .error e
  | .ok sensorEvent =>
    match eventParserMap uuidParse sensorEvent.typ with
    | none => .ok (.sensorEv { sensorEvent with typ := "Unknown" })
    | some parseFunction => parseFunction j sensor group

end EventDefs

/-- One element of the JSON array in an events request body, as consumed
by `json.Decoder.Decode(&eventData)` in `EventsAPI.Handle`: either the
element is syntactically well-formed JSON and decodes to a value, or the
decoder fails on it. -/
inductive RawElement where
  | malformed
  | elem (j : Json)

/-- Outcome of the `EventsAPI.Handle` body-parsing loop: either the
request is rejected with 400 Bad Request, or the loop completes with the
accumulated parsed events (which `Handle` then hands to the event
processor). -/
inductive BatchResult where
  | badRequest
  | ok (parsedEvents : List Event)
  deriving DecidableEq

/-- The `for decoder.More()` loop of `EventsAPI.Handle`
(`server/api/events.go`): a decoder failure on an element returns 400 for
the whole request; a `ParseEvent` failure only skips that element. -/
def handleEventsLoop (uuidParse : String → UUID) (sensor group : UUID) :
    List RawElement → List Event → BatchResult
  | [], parsedEvents => .ok parsedEvents
  | .malformed :: _, _ => .badRequest
  | .elem j :: rest, parsedEvents =>
    match ParseEvent uuidParse j sensor group with
    | .error _ => handleEventsLoop uuidParse sensor group rest parsedEvents
    | .ok event => handleEventsLoop uuidParse sensor group rest (parsedEvents ++ [event])

/-- The valid WindowLocation event used by the repository's tests and the
spec's example. -/
def validWindowLocationJson : Json :=
  .obj [("type", .str "WindowLocation"), ("time", .num 45678), ("protocol", .str "https"),
    ("hostname", .str "weaklayer.com"), ("port", .num 443), ("path", .str ""),
    ("search", .str ""), ("hash", .str ""), ("windowReference", .num 1)]

/-- The same event with the required "time" field removed: well-formed
JSON that fails envelope schema validation. -/
def missingTimeJson : Json :=
  .obj [("type", .str "WindowLocation"), ("protocol", .str "https"),
    ("hostname", .str "weaklayer.com"), ("port", .num 443), ("path", .str ""),
    ("search", .str ""), ("hash", .str ""), ("windowReference", .num 1)]

/-- An envelope-valid event of a type the gateway does not know, from the
repository's `TestValidUnknownEvent`. -/
def unknownTypeJson : Json :=
  .obj [("type", .str "SuperAwesomeFutureEvent"), ("time", .num 45678452345),
    ("yo", .str "yo")]

/-- Fixture: an authenticated sensor identity for concrete instances. -/
def testSensor : UUID := List.replicate 16 3

/-- Fixture: an authenticated group identity for concrete instances. -/
def testGroup : UUID := List.replicate 16 4

/-- Fixture: the event `ParseEvent` produces from
`validWindowLocationJson` under the authenticated test identities. -/
def parsedWindowLocationEvent : Event :=
  .windowLocationEv
    { base := { typ := "WindowLocation", time := 45678, sensor := testSensor, group := testGroup }
      protocol := "https", hostname := "weaklayer.com", port := 443
      path := "", search := "", hash := "", windowReference := 1 }

/-- Helper: unregistered type strings have no entry in the parser
registry. -/
theorem eventParserMap_eq_none (uuidParse : String → UUID) (t : String)
    (hw : t ≠ "Window") (hwl : t ≠ "WindowLocation") :
    eventParserMap uuidParse t = none := by
  simp [eventParserMap, hw, hwl]

/-- C5: whenever `ParseEvent` succeeds — registered or unknown type — the
returned event carries exactly the authenticated sensor and group passed
in; identity values supplied inside the payload are discarded. -/
theorem c5_identity_overwrite (uuidParse : String → UUID) (j : Json) (sensor group : UUID)
    (ev : Event) (h : ParseEvent uuidParse j sensor group = .ok ev) :
    getSensor ev = sensor ∧ getGroup ev = group := by
  unfold ParseEvent eventParserMap at h
  split at h
  · cases h
  · rename_i se heq
    have hse : se.sensor = sensor ∧ se.group = group := by
      simp only [parseSensorEvent] at heq
      split at heq
      · cases heq; exact ⟨rfl, rfl⟩
      · cases heq
    by_cases hw : se.typ = "Window"
    · rw [if_pos hw] at h
      simp only [parseWindowEvent] at h
      split at h
      · simp only [Except.ok.injEq] at h
        subst h
        simp [getSensor, getGroup]
      · cases h
    · by_cases hwl : se.typ = "WindowLocation"
      · rw [if_neg hw, if_pos hwl] at h
        simp only [parseWindowLocationEvent] at h
        split at h
        · simp only [Except.ok.injEq] at h
          subst h
          simp [getSensor, getGroup]
        · cases h
      · rw [if_neg hw, if_neg hwl] at h
        simp only [Except.ok.injEq] at h
        subst h
        simp [getSensor, getGroup, hse.1, hse.2]

/-- C5 witness: the spec's example WindowLocation event parses and the
result carries the authenticated test identities (not anything from the
payload). -/
theorem c5_identity_overwrite_witness :
    ParseEvent (fun _ => zeroUUID) validWindowLocationJson testSensor testGroup
      = .ok parsedWindowLocationEvent
    ∧ getSensor parsedWindowLocationEvent = testSensor
    ∧ getGroup parsedWindowLocationEvent = testGroup :=
  ⟨rfl, c5_identity_overwrite (fun _ => zeroUUID) validWindowLocationJson
    testSensor testGroup parsedWindowLocationEvent rfl⟩

/-- C9: a JSON object that passes the envelope schema but whose type has
no registered parser yields — with no error — the bare envelope with the
type forced to the `Unknown` sentinel and the authenticated identities
stamped in. -/
theorem c9_unknown_type_envelope (uuidParse : String → UUID) (j : Json) (sensor group : UUID)
    (hval : validateSensorEventJSON j = true)
    (hw : (unmarshalSensorEvent uuidParse j).typ ≠ "Window")
    (hwl : (unmarshalSensorEvent uuidParse j).typ ≠ "WindowLocation") :
    ParseEvent uuidParse j sensor group
      = .ok (.sensorEv ⟨"Unknown", (unmarshalSensorEvent uuidParse j).time, sensor, group⟩) := by
  simp [ParseEvent, parseSensorEvent, hval, eventParserMap_eq_none uuidParse _ hw hwl]

/-- C9 witness: the spec's "SuperAwesomeFutureEvent" example parses into
an `Unknown`-typed envelope. -/
theorem c9_unknown_type_envelope_witness :
    (validateSensorEventJSON unknownTypeJson = true
      ∧ (unmarshalSensorEvent (fun _ => zeroUUID) unknownTypeJson).typ ≠ "Window"
      ∧ (unmarshalSensorEvent (fun _ => zeroUUID) unknownTypeJson).typ ≠ "WindowLocation")
    ∧ ParseEvent (fun _ => zeroUUID) unknownTypeJson testSensor testGroup
      = .ok (.sensorEv ⟨"Unknown", 45678452345, testSensor, testGroup⟩) :=
  ⟨⟨by decide, by decide, by decide⟩, by
    rw [c9_unknown_type_envelope (fun _ => zeroUUID) unknownTypeJson testSensor testGroup
      (by decide) (by decide) (by decide)]
    rfl⟩

/-- C6 counterexample: a batch whose first element is syntactically
malformed JSON and whose second element is a perfectly valid
WindowLocation event is rejected wholesale with 400 Bad Request by the
`Handle` loop — the remaining valid element is never processed, contrary
to the claim that a malformed-JSON element is skipped locally. -/
theorem c6_counterexample_malformed_aborts :
    handleEventsLoop (fun _ => zeroUUID) testSensor testGroup
        [.malformed, .elem validWindowLocationJson] [] = .badRequest
    ∧ handleEventsLoop (fun _ => zeroUUID) testSensor testGroup
        [.malformed, .elem validWindowLocationJson] []
      ≠ .ok [parsedWindowLocationEvent] :=
  ⟨rfl, by decide⟩

/-- C6 (amended): for batches whose elements are all syntactically
well-formed JSON, a `ParseEvent` failure (e.g. failed schema validation)
is local — the loop skips that element and parses the rest, surfacing no
error; a syntactically malformed element instead aborts the whole request
with 400. In particular the batch of one valid WindowLocation event
followed by an event missing "time" yields exactly the one parsed
event. -/
theorem c6_parse_failures_are_local :
    (∀ (uuidParse : String → UUID) (sensor group : UUID) (elems : List RawElement)
        (acc : List Event), (∀ e ∈ elems, e ≠ RawElement.malformed) →
        handleEventsLoop uuidParse sensor group elems acc
          = .ok (acc ++ elems.filterMap (fun e =>
              match e with
              | .elem j => (ParseEvent uuidParse j sensor group).toOption
              | .malformed => none)))
    ∧ handleEventsLoop (fun _ => zeroUUID) testSensor testGroup
        [.elem validWindowLocationJson, .elem missingTimeJson] []
      = .ok [parsedWindowLocationEvent] := by
  constructor
  · intro uuidParse sensor group elems
    induction elems with
    | nil => intro acc _; simp [handleEventsLoop]
    | cons e rest ih =>
      intro acc hwf
      cases e with
      | malformed => exact absurd rfl (hwf _ (List.mem_cons_self _ _))
      | elem j =>
        have hrest : ∀ x ∈ rest, x ≠ RawElement.malformed :=
          fun x hx => hwf x (List.mem_cons_of_mem _ hx)
        cases hp : ParseEvent uuidParse j sensor group with
        | error u =>
          simp only [handleEventsLoop, hp]
          rw [ih acc hrest]
          simp [hp, Except.toOption]
        | ok ev =>
          simp only [handleEventsLoop, hp]
          rw [ih (acc ++ [ev]) hrest]
          simp [hp, Except.toOption]
  · rfl

/-- C6 witness for the amended statement: the two-element all-well-formed
batch from the spec's example, where the second element fails schema
validation and is dropped locally. -/
theorem c6_parse_failures_are_local_witness :
    (∀ e ∈ [RawElement.elem validWindowLocationJson, RawElement.elem missingTimeJson],
        e ≠ RawElement.malformed)
    ∧ handleEventsLoop (fun _ => zeroUUID) testSensor testGroup
        [.elem validWindowLocationJson, .elem missingTimeJson] []
      = .ok ([] ++ [RawElement.elem validWindowLocationJson,
            RawElement.elem missingTimeJson].filterMap (fun e =>
          match e with
          | .elem j => (ParseEvent (fun _ => zeroUUID) j testSensor testGroup).toOption
          | .malformed => none)) :=
  ⟨by simp, c6_parse_failures_are_local.1 (fun _ => zeroUUID) testSensor testGroup
    [.elem validWindowLocationJson, .elem missingTimeJson] [] (by simp)⟩

end Weaklayer.Events

namespace Weaklayer.Fs

/-! Embedding of `server/output/filesystem/file.go`'s per-file writer.
The writer goroutine `process` consumes serialized events from its
channel; the content below tracks the bytes written to the descriptor in
the error-free I/O case (a failed `writeToFile` only truncates the data
and is logged, and disk errors are nondeterminism outside this model). -/

/-- The `"[\n"` bytes `newFile` primes a fresh file with. -/
def openingBytes : Bytes := [91, 10]

/-- The `",\n"` separator written before every non-first event. -/
def separatorBytes : Bytes := [44, 10]

/-- The `"\n]"` bytes `closeFile` appends on finalization. -/
def closingBytes : Bytes := [10, 93]

/-- State of `process` for one file: bytes on disk, the
`totalBytesWritten` counter (which starts at 0 — the priming bracket was
written by `newFile` before `process` starts), the `isFirstEvent` flag,
and whether `sayDone` has closed the done channel. -/
structure ProcState where
  content : Bytes
  bytesWritten : Nat
  isFirstEvent : Bool
  doneSignaled : Bool
  deriving DecidableEq

/-- The state right after `newFile` primed the file and `process`
started. -/
def initialProcState : ProcState :=
  { content := openingBytes, bytesWritten := 0, isFirstEvent := true, doneSignaled := false }

/-- The `write` closure inside `process`: append to the file and add to
`totalBytesWritten`. -/
def procWrite (st : ProcState) (data : Bytes) : ProcState :=
  { st with content := st.content ++ data, bytesWritten := st.bytesWritten + data.length }

/-- One iteration of `process`'s `for eventContent := range content`
loop: a `",\n"` separator unless this is the first event, then the event
itself; if `totalBytesWritten` has reached `maxFileSize`, `sayDone` is
called, which only stops future external `Write` calls from enqueueing
(events already received are unaffected). -/
def procStep (maxFileSize : Nat) (st : ProcState) (eventContent : Bytes) : ProcState :=
  let st1 := if st.isFirstEvent then st else procWrite st separatorBytes
  let st2 := procWrite st1 eventContent
  let st3 := { st2 with isFirstEvent := false }
  if maxFileSize ≤ st3.bytesWritten then { st3 with doneSignaled := true } else st3

/-- `process` run over the events received from the content channel
before it was closed, in order. -/
def runProcess (maxFileSize : Nat) (events : List Bytes) : ProcState :=
  events.foldl (procStep maxFileSize) initialProcState

/-- A finalized output file: its content and the path it is visible
under. -/
structure FinalFile where
  content : Bytes
  path : String
  deriving DecidableEq

/-- `newFile`'s in-progress path: the dot-prefixed hidden name inside the
group directory (`filepath.Join` modelled as slash concatenation). -/
def inProgressPath (groupDirectory filename : String) : String :=
  groupDirectory ++ "/." ++ filename

/-- `newFile`'s final path for the same file: the visible name without
the dot. -/
def finalPath (groupDirectory filename : String) : String :=
  groupDirectory ++ "/" ++ filename

/-- `closeFile` inside `process` (run on rotation or shutdown): write the
`"\n]"` JSON array closure, close the descriptor, and rename the hidden
in-progress file to its final visible path. -/
def finalizeFile (groupDirectory filename : String) (st : ProcState) : FinalFile :=
  { content := st.content ++ closingBytes
    path := finalPath groupDirectory filename }

/-- End to end: the finalized file produced by a writer that was primed
by `newFile` and received the given events before its channel closed. -/
def processFile (maxFileSize : Nat) (groupDirectory filename : String)
    (events : List Bytes) : FinalFile :=
  finalizeFile groupDirectory filename (runProcess maxFileSize events)

/-- The events after the first one, each preceded by the `",\n"`
separator. -/
def sepAll : List Bytes → Bytes
  | [] => []
  | e :: rest => separatorBytes ++ e ++ sepAll rest

/-- Comma-newline-separated join, the spec's description of the file
body. -/
def joinSep (sep : Bytes) : List Bytes → Bytes
  | [] => []
  | [e] => e
  | e :: rest => e ++ sep ++ joinSep sep rest

theorem procStep_isFirstEvent (maxFileSize : Nat) (st : ProcState) (e : Bytes) :
    (procStep maxFileSize st e).isFirstEvent = false := by
  simp only [procStep, procWrite]
  split <;> split <;> rfl

theorem procStep_content (maxFileSize : Nat) (st : ProcState) (e : Bytes) :
    (procStep maxFileSize st e).content
      = (if st.isFirstEvent then st.content else st.content ++ separatorBytes) ++ e := by
  simp only [procStep, procWrite]
  split <;> split <;> simp

theorem foldl_procStep_content (maxFileSize : Nat) :
    ∀ (events : List Bytes) (st : ProcState), st.isFirstEvent = false →
      (events.foldl (procStep maxFileSize) st).content = st.content ++ sepAll events := by
  intro events
  induction events with
  | nil => intro st _; simp [sepAll]
  | cons e rest ih =>
    intro st h
    rw [List.foldl_cons, ih _ (procStep_isFirstEvent maxFileSize st e), procStep_content, if_neg]
    · simp [sepAll, List.append_assoc]
    · simp [h]

theorem joinSep_cons (e : Bytes) : ∀ rest, joinSep separatorBytes (e :: rest) = e ++ sepAll rest := by
  intro rest
  induction rest generalizing e with
  | nil => simp [joinSep, sepAll]
  | cons r rest' ih => simp [joinSep, sepAll, ih r, List.append_assoc]

/-- C7: the finalized file of a writer that received `e1 .. en` in order
is exactly the opening `"[\n"`, then the events joined by `",\n"` (no
separator before the first), then the closing `"\n]"`; it is written
under the hidden dot-prefixed name and finalization publishes it under
the visible name, so the content under a visible name is always the
complete bracketed form. -/
theorem c7_finalized_file_format (maxFileSize : Nat) (groupDirectory filename : String)
    (events : List Bytes) :
    (processFile maxFileSize groupDirectory filename events).content
        = openingBytes ++ joinSep separatorBytes events ++ closingBytes
    ∧ (processFile maxFileSize groupDirectory filename events).path
        = groupDirectory ++ "/" ++ filename
    ∧ inProgressPath groupDirectory filename = groupDirectory ++ "/." ++ filename := by
  refine ⟨?_, rfl, rfl⟩
  cases events with
  | nil => simp [processFile, finalizeFile, runProcess, initialProcState, joinSep, openingBytes]
  | cons e rest =>
    simp only [processFile, finalizeFile, runProcess, List.foldl_cons]
    rw [foldl_procStep_content maxFileSize rest _ (procStep_isFirstEvent _ _ _),
      procStep_content, joinSep_cons]
    simp [initialProcState, List.append_assoc]

/-- Capacity of the `eventData` channel created in `newMetaFile`. -/
def metaFileQueueCapacity : Nat := 10000

section FsConsume

/- External primitive: `json.Marshal` applied to an `events.Event`
interface value; `none` models a serialization error. -/
variable (marshal : Events.Event → Option Bytes)

/-- One iteration of `metaFile.Consume`'s loop over the batch: serialize
(drop on error, setting `encounteredError`), then the non-blocking
`select` send on the buffered channel (drop and set the flag when the
buffer is full, i.e. holds `metaFileQueueCapacity` items). The queue
lists the buffered-but-not-yet-drained items. -/
def consumeStep (acc : List Bytes × Bool) (event : Events.Event) : List Bytes × Bool :=
  match marshal event with
  | none => (acc.1, true)
  | some serializedBytes =>
    if acc.1.length < metaFileQueueCapacity then
      (acc.1 ++ [serializedBytes], acc.2)
    else
      (acc.1, true)

/-- `metaFile.Consume` (identical in both observed revisions of the
filesystem sink): fold the batch through `consumeStep`; the returned flag
is `encounteredError`, and the Go function returns an error exactly when
it is set. -/
def metaFileConsume (queue : List Bytes) (events : List Events.Event) : List Bytes × Bool :=
  events.foldl (consumeStep marshal) (queue, false)

/-- Specification-side description of which serialized events end up
enqueued when `room` slots are free: serialization failures and events
arriving after the room is exhausted are dropped, every other event of
the batch is still enqueued in order. -/
def enqueuedEvents : Nat → List Events.Event → List Bytes
  | _, [] => []
  | room, e :: rest =>
    match marshal e with
    | none => enqueuedEvents room rest
    | some b =>
      match room with
      | 0 => enqueuedEvents 0 rest
      | r + 1 => b :: enqueuedEvents r rest

theorem consumeStep_foldl_spec :
    ∀ (events : List Events.Event) (queue : List Bytes) (err : Bool),
      queue.length ≤ metaFileQueueCapacity →
      (events.foldl (consumeStep marshal) (queue, err)).1
          = queue ++ enqueuedEvents marshal (metaFileQueueCapacity - queue.length) events
      ∧ ((events.foldl (consumeStep marshal) (queue, err)).2 = true ↔
          err = true ∨ (∃ e ∈ events, marshal e = none)
            ∨ metaFileQueueCapacity < queue.length + events.length) := by
  intro events
  induction events with
  | nil =>
    intro queue err hq
    constructor
    · simp [enqueuedEvents]
    · simp
      omega
  | cons e rest ih =>
    intro queue err hq
    rw [List.foldl_cons]
    cases hm : marshal e with
    | none =>
      have ihr := ih queue true hq
      constructor
      · rw [show consumeStep marshal (queue, err) e = (queue, true) by simp [consumeStep, hm]]
        rw [ihr.1]
        simp [enqueuedEvents, hm]
      · rw [show consumeStep marshal (queue, err) e = (queue, true) by simp [consumeStep, hm]]
        rw [ihr.2]
        simp [List.exists_mem_cons_iff, hm]
    | some b =>
      by_cases hroom : queue.length < metaFileQueueCapacity
      · have hstep : consumeStep marshal (queue, err) e = (queue ++ [b], err) := by
          simp [consumeStep, hm, hroom]
        have hq' : (queue ++ [b]).length ≤ metaFileQueueCapacity := by
          simp
          omega
        have ihr := ih (queue ++ [b]) err hq'
        have hr : metaFileQueueCapacity - queue.length
            = (metaFileQueueCapacity - (queue ++ [b]).length) + 1 := by
          simp
          omega
        constructor
        · rw [hstep, ihr.1, hr]
          simp [enqueuedEvents, hm, List.append_assoc]
        · rw [hstep, ihr.2]
          have harith : metaFileQueueCapacity < (queue ++ [b]).length + rest.length
              ↔ metaFileQueueCapacity < queue.length + (e :: rest).length := by
            simp
            omega
          rw [harith]
          simp [List.exists_mem_cons_iff, hm]
      · have hfull : queue.length = metaFileQueueCapacity := by omega
        have hstep : consumeStep marshal (queue, err) e = (queue, true) := by
          simp [consumeStep, hm, hroom]
        have ihr := ih queue true hq
        constructor
        · rw [hstep, ihr.1]
          have hzero : metaFileQueueCapacity - queue.length = 0 := by omega
          rw [hzero]
          simp [enqueuedEvents, hm]
        · rw [hstep, ihr.2]
          have hlt : metaFileQueueCapacity < queue.length + (rest.length + 1) := by omega
          simp [List.exists_mem_cons_iff, hlt]

/-- C8: `metaFile.Consume` never blocks (it is a total fold over the
batch); the final queue is the old queue extended by exactly the events
that serialized and found room — events after a dropped one are still
attempted — and the call reports an error iff at least one event of the
batch was dropped, either for a serialization failure or because the
bounded queue filled up. -/
theorem c8_consume_drop_policy (marshal : Events.Event → Option Bytes)
    (queue : List Bytes) (events : List Events.Event)
    (hq : queue.length ≤ metaFileQueueCapacity) :
    (metaFileConsume marshal queue events).1
        = queue ++ enqueuedEvents marshal (metaFileQueueCapacity - queue.length) events
    ∧ ((metaFileConsume marshal queue events).2 = true ↔
        (∃ e ∈ events, marshal e = none)
          ∨ metaFileQueueCapacity < queue.length + events.length) := by
  have h := consumeStep_foldl_spec marshal events queue false hq
  refine ⟨h.1, ?_⟩
  rw [metaFileConsume, h.2]
  simp

end FsConsume

/-- `FilesystemOutput.metaFiles` lookup (the `map[uuid.UUID]metaFile`
read in `getGroupMetaFile`). -/
def lookupGroup : List (UUID × List Bytes) → UUID → Option (List Bytes)
  | [], _ => none
  | (g, q) :: rest, group => if g = group then some q else lookupGroup rest group

/-- Store of a group's queue back into the map (an existing entry is
replaced, a missing one appended — Go map assignment). -/
def updateGroup : List (UUID × List Bytes) → UUID → List Bytes → List (UUID × List Bytes)
  | [], group, q => [(group, q)]
  | (g, q0) :: rest, group, q =>
    if g = group then (g, q) :: rest else (g, q0) :: updateGroup rest group q

/-- `FilesystemOutput.Consume`: reads `events[0].GetGroup()` before any
emptiness check — on an empty batch the slice index is out of range and
the call panics — then routes the entire batch to that one group's
`metaFile.Consume`. `getGroupMetaFile`'s creation path for an unseen
group (directory creation plus `newMetaFile`, both fallible I/O) is
modelled as installing a fresh empty queue, its happy path. -/
def filesystemConsume (marshal : Events.Event → Option Bytes)
    (metaFiles : List (UUID × List Bytes)) (events : List Events.Event) :
    GoResult (List (UUID × List Bytes) × Bool) :=
  match events with
  | [] => .crash
  | e :: rest =>
    let group := Events.getGroup e
    let queue := (lookupGroup metaFiles group).getD []
    let result := metaFileConsume marshal queue (e :: rest)
    .ok (updateGroup metaFiles group result.1, result.2)

theorem lookupGroup_updateGroup_ne :
    ∀ (metaFiles : List (UUID × List Bytes)) (group : UUID) (q : List Bytes) (g : UUID),
      g ≠ group → lookupGroup (updateGroup metaFiles group q) g = lookupGroup metaFiles g := by
  intro metaFiles
  induction metaFiles with
  | nil =>
    intro group q g hne
    have hgg : ¬group = g := fun h => hne h.symm
    simp [updateGroup, lookupGroup, hgg]
  | cons p rest ih =>
    intro group q g hne
    rcases p with ⟨g0, q0⟩
    by_cases h0 : g0 = group
    · subst h0
      have hgg : ¬g0 = g := fun h => hne h.symm
      simp [updateGroup, lookupGroup, hgg]
    · simp [updateGroup, lookupGroup, h0]
      split
      · rfl
      · exact ih group q g hne

/-- C10: `FilesystemOutput.Consume` panics on the empty batch (the
`events[0]` read precedes any emptiness check), and on a non-empty batch
it delivers the entire batch to the single pipeline of the first event's
group: the resulting state holds that group's queue as updated by
`metaFile.Consume` on the whole batch, the returned error flag is that
call's, and every other group's queue is untouched. -/
theorem c10_consume_head_group_routing (marshal : Events.Event → Option Bytes)
    (metaFiles : List (UUID × List Bytes)) :
    filesystemConsume marshal metaFiles [] = .crash
    ∧ (∀ (e : Events.Event) (rest : List Events.Event),
        filesystemConsume marshal metaFiles (e :: rest)
          = .ok (updateGroup metaFiles (Events.getGroup e)
                (metaFileConsume marshal
                  ((lookupGroup metaFiles (Events.getGroup e)).getD []) (e :: rest)).1,
              (metaFileConsume marshal
                ((lookupGroup metaFiles (Events.getGroup e)).getD []) (e :: rest)).2))
    ∧ (∀ (group : UUID) (q : List Bytes) (g : UUID), g ≠ group →
        lookupGroup (updateGroup metaFiles group q) g = lookupGroup metaFiles g) := by
  refine ⟨rfl, fun e rest => rfl, fun group q g hne =>
    lookupGroup_updateGroup_ne metaFiles group q g hne⟩

/-- C10 witness: the empty batch crashes and a foreign group's queue is
untouched by an update of the head group's queue. -/
theorem c10_consume_head_group_routing_witness :
    Events.testSensor ≠ Events.testGroup
    ∧ filesystemConsume (fun _ => some [7]) [] ([] : List Events.Event) = .crash
    ∧ lookupGroup (updateGroup [] Events.testGroup [[7]]) Events.testSensor
      = lookupGroup [] Events.testSensor :=
  ⟨by decide, (c10_consume_head_group_routing (fun _ => some [7]) []).1,
    (c10_consume_head_group_routing (fun _ => some [7]) []).2.2
      Events.testGroup [[7]] Events.testSensor (by decide)⟩

/-- C8 witness: a two-event batch on an empty queue, everything
serializes and fits — both events are enqueued in order and no error is
reported. -/
theorem c8_consume_drop_policy_witness :
    ([] : List Bytes).length ≤ metaFileQueueCapacity
    ∧ (metaFileConsume (fun _ => some [7]) []
        [.sensorEv ⟨"", 0, Events.zeroUUID, Events.zeroUUID⟩,
          .sensorEv ⟨"", 1, Events.zeroUUID, Events.zeroUUID⟩]).1
      = [] ++ enqueuedEvents (fun _ => some [7]) (metaFileQueueCapacity - ([] : List Bytes).length)
          [.sensorEv ⟨"", 0, Events.zeroUUID, Events.zeroUUID⟩,
            .sensorEv ⟨"", 1, Events.zeroUUID, Events.zeroUUID⟩] :=
  ⟨by decide,
    (c8_consume_drop_policy (fun _ => some [7]) []
      [.sensorEv ⟨"", 0, Events.zeroUUID, Events.zeroUUID⟩,
        .sensorEv ⟨"", 1, Events.zeroUUID, Events.zeroUUID⟩] (by decide)).1⟩

end Weaklayer.Fs
